import Mathlib

/-!
Verification of the company-context versioning flow and team member
management of the SaaS backend.

The embedding models the MongoDB collections as lists of records (in
insertion order) and the controller functions as pure functions over a
`DB` value.  Fallible handlers return `Except Err α` where `Err` carries
the message and HTTP status passed to `createError`.  A JS falsy string
field (missing or `""`) is modelled as the empty string.
-/

/-- Error value produced by `createError(message, statusCode)`. -/
structure Err where
  message : String
  statusCode : Nat
deriving DecidableEq, Repr

/-- `trainingStatus` enum of the Company schema. -/
inductive TrainingStatus where
  | in_progress
  | completed
  | failed
deriving DecidableEq, Repr

/-- A document of the `Company` collection (models/Company.js). -/
structure Company where
  companyId : String
  name : String
  documentName : String
  documentContext : String
  chatbotUrl : String
  trainingStatus : TrainingStatus
deriving DecidableEq, Repr

/-- A document of the `CompanyContext` collection (models/CompanyContext.js):
`{company_id, context, version, isActive}`. -/
structure CompanyContext where
  company_id : String
  context : String
  version : Nat
  isActive : Bool
deriving DecidableEq, Repr

/-- The persistent store: both collections, each in insertion order. -/
structure DB where
  companies : List Company
  contexts : List CompanyContext
deriving DecidableEq, Repr

/-- The empty database. -/
def DB.init : DB := { companies := [], contexts := [] }

/-- `Company.findOne({ companyId })`. -/
def findCompany (db : DB) (cid : String) : Option Company :=
  db.companies.find? (fun c => c.companyId == cid)

/-- All `CompanyContext` documents for a given `company_id`
(`CompanyContext.find({ company_id })`). -/
def ctxsFor (db : DB) (cid : String) : List CompanyContext :=
  db.contexts.filter (fun c => c.company_id == cid)

/-- The active `CompanyContext` documents for a given `company_id`. -/
def activesFor (db : DB) (cid : String) : List CompanyContext :=
  (ctxsFor db cid).filter (fun c => c.isActive)

/-- `findOne(...).sort({ version: -1 })`: the document with the maximal
`version` among the candidates (earliest on ties), `none` when empty. -/
def maxByVersion : List CompanyContext → Option CompanyContext
  | [] => none
  | c :: rest =>
    match maxByVersion rest with
    | none => some c
    | some m => if m.version > c.version then some m else some c

/-- The `updateMany({company_id}, {isActive:false})` write, per document. -/
def deactFor (cid : String) (c : CompanyContext) : CompanyContext :=
  if c.company_id == cid then { c with isActive := false } else c

/-- The `Company.findOneAndUpdate({companyId},{documentContext})` write,
per document. -/
def setDocCtx (cid ctx : String) (c : Company) : Company :=
  if c.companyId == cid then { c with documentContext := ctx } else c

/-- `createCompany` (companyController): validate the four required body
fields, reject a duplicate `companyId`, then in one transaction create the
Company record (trainingStatus `completed`) and the version-1 active
context record. -/
def createCompany (db : DB) (companyId name documentName documentContext chatbotUrl : String) :
    Except Err (DB × Company) :=
  if companyId = "" ∨ name = "" ∨ documentContext = "" ∨ chatbotUrl = "" then
    .error ⟨"Please provide companyId, name, documentContext, and chatbotUrl", 400⟩
  else
    match findCompany db companyId with
    | some _ => .error ⟨"Company with ID " ++ companyId ++ " already exists", 400⟩
    | none =>
      let company : Company :=
        { companyId := companyId, name := name, documentName := documentName,
          documentContext := documentContext, chatbotUrl := chatbotUrl,
          trainingStatus := .completed }
      let ctx : CompanyContext :=
        { company_id := companyId, context := documentContext, version := 1, isActive := true }
      .ok ({ companies := db.companies ++ [company], contexts := db.contexts ++ [ctx] }, company)

/-- Response body of `updateCompanyContext`. -/
structure UpdateResp where
  companyId : String
  name : String
  context : String
  version : Nat
  isActive : Bool
deriving DecidableEq, Repr

/-- `updateCompanyContext` (companyController): reject a missing `context`
body field or an unknown company; then in one transaction read the latest
version (`findOne().sort({version:-1})`), set all contexts of the company
inactive, insert the new active context with `version = latest+1` (1 when
none), and overwrite the company's denormalized `documentContext`. -/
def updateCompanyContext (db : DB) (cid ctx : String) : Except Err (DB × UpdateResp) :=
  if ctx = "" then .error ⟨"Please provide the context to update", 400⟩
  else
    match findCompany db cid with
    | none => .error ⟨"Company with ID " ++ cid ++ " not found", 404⟩
    | some company =>
      let newVersion : Nat :=
        match maxByVersion (ctxsFor db cid) with
        | some latest => latest.version + 1
        | none => 1
      let newCtx : CompanyContext :=
        { company_id := cid, context := ctx, version := newVersion, isActive := true }
      let db' : DB :=
        { companies := db.companies.map (setDocCtx cid ctx),
          contexts := db.contexts.map (deactFor cid) ++ [newCtx] }
      .ok (db', { companyId := company.companyId, name := company.name,
                  context := newCtx.context, version := newCtx.version,
                  isActive := newCtx.isActive })

/-- Origin tag of a context read. -/
inductive Source where
  | context_collection
  | company_fallback
deriving DecidableEq, Repr

/-- Response body of `getCompanyContext`. -/
structure ReadResp where
  companyId : String
  name : String
  context : String
  version : Nat
  source : Source
deriving DecidableEq, Repr

/-- `getCompanyContext` (companyController): 404 when the company is
missing; otherwise return the active context with the highest version
(`findOne({isActive:true}).sort({version:-1})`), falling back to the
company's denormalized `documentContext` as version 1, and 404 when
neither exists. -/
def getCompanyContext (db : DB) (cid : String) : Except Err ReadResp :=
  match findCompany db cid with
  | none => .error ⟨"Company with ID " ++ cid ++ " not found", 404⟩
  | some company =>
    match maxByVersion (activesFor db cid) with
    | none =>
      if company.documentContext = "" then
        .error ⟨"No context available for company with ID " ++ cid, 404⟩
      else
        .ok { companyId := company.companyId, name := company.name,
              context := company.documentContext, version := 1,
              source := .company_fallback }
    | some c =>
      .ok { companyId := company.companyId, name := company.name,
            context := c.context, version := c.version,
            source := .context_collection }

/-- `deleteCompany` (companyController): 404 when the company is missing;
otherwise `company.deleteOne()` removes that Company document only — the
`CompanyContext` collection is not touched. -/
def deleteCompany (db : DB) (cid : String) : Except Err DB :=
  match findCompany db cid with
  | none => .error ⟨"Company with ID " ++ cid ++ " not found", 404⟩
  | some _ =>
    .ok { db with companies := db.companies.eraseP (fun c => c.companyId == cid) }

/-- Remediation codes of the context-diagnostic endpoint. -/
inductive Suggestion where
  | CREATE_CONTEXT
  | UPLOAD_DOCUMENT
  | FIX_ACTIVE_CONTEXTS
deriving DecidableEq, Repr

/-- The 200 diagnostic body (companyRoutes.js). -/
structure DiagReport where
  companyId : String
  companyName : String
  hasDocumentContext : Bool
  documentContextLength : Nat
  contextsCount : Nat
  activeContexts : Nat
  suggestion : Option Suggestion
deriving DecidableEq, Repr

/-- Outcome of the context-diagnostic endpoint: a 404 body carrying
`exists:false` for a missing company, or a 200 report. -/
inductive DiagResult where
  | notFound (companyId : String)
  | report (r : DiagReport)
deriving DecidableEq, Repr

/-- HTTP status of a diagnostic outcome. -/
def DiagResult.status : DiagResult → Nat
  | .notFound _ => 404
  | .report _ => 200

/-- The `exists` flag of the diagnostic body. -/
def DiagResult.existsFlag : DiagResult → Bool
  | .notFound _ => false
  | .report _ => true

/-- The suggestion carried by a diagnostic outcome (none in the 404 body). -/
def DiagResult.suggestionOf : DiagResult → Option Suggestion
  | .notFound _ => none
  | .report r => r.suggestion

/-- `GET /:companyId/context-diagnostic` (companyRoutes.js): 404 with
`exists:false` when the company is missing; otherwise a 200 report with
`hasDocumentContext` true iff the denormalized context is longer than 100
characters, the context/active counts, and the remediation suggestion
chain `CREATE_CONTEXT` / `UPLOAD_DOCUMENT` / `FIX_ACTIVE_CONTEXTS`. -/
def contextDiagnostic (db : DB) (cid : String) : DiagResult :=
  match findCompany db cid with
  | none => .notFound cid
  | some company =>
    let contexts := ctxsFor db cid
    let hasDocumentContext : Bool := company.documentContext.length > 100
    let activeCount := (contexts.filter (fun c => c.isActive)).length
    let suggestion : Option Suggestion :=
      if contexts.length = 0 ∧ hasDocumentContext then some .CREATE_CONTEXT
      else if contexts.length = 0 ∧ ¬(hasDocumentContext : Prop) then some .UPLOAD_DOCUMENT
      else if activeCount > 1 then some .FIX_ACTIVE_CONTEXTS
      else none
    .report { companyId := cid, companyName := company.name,
              hasDocumentContext := hasDocumentContext,
              documentContextLength := company.documentContext.length,
              contextsCount := contexts.length,
              activeContexts := activeCount,
              suggestion := suggestion }

/-- Team membership roles. -/
inductive Role where
  | owner
  | admin
  | member
deriving DecidableEq, Repr

/-- A `members` entry of the Team schema. -/
structure Member where
  user : String
  role : Role
deriving DecidableEq, Repr

/-- A Team document: owner id plus membership entries. -/
structure Team where
  owner : String
  members : List Member
deriving DecidableEq, Repr

/-- `removeTeamMember` (team controller): 404 when `findById` found no
team; 403 when the caller is not a member with role owner or admin; 400
when the target is the team owner; 404 when the target is not a member;
otherwise splice the target entry out. -/
def removeTeamMember (team? : Option Team) (callerId targetId : String) : Except Err Team :=
  match team? with
  | none => .error ⟨"Team not found", 404⟩
  | some team =>
    match team.members.find? (fun m => m.user == callerId) with
    | none => .error ⟨"Not authorized to remove members", 403⟩
    | some userMember =>
      if userMember.role ≠ .owner ∧ userMember.role ≠ .admin then
        .error ⟨"Not authorized to remove members", 403⟩
      else if team.owner == targetId then
        .error ⟨"Team owner cannot be removed", 400⟩
      else
        match team.members.find? (fun m => m.user == targetId) with
        | none => .error ⟨"User is not a team member", 404⟩
        | some _ =>
          .ok { team with members := team.members.eraseP (fun m => m.user == targetId) }

/-- HTTP status of a handler outcome (success responds 200 here). -/
def statusOf {α : Type} : Except Err α → Nat
  | .error e => e.statusCode
  | .ok _ => 200

/-- One API call of the company-context history. -/
inductive Op where
  | create (cid name documentName documentContext chatbotUrl : String)
  | update (cid ctx : String)
  | delete (cid : String)
deriving DecidableEq, Repr

/-- Run one call; a failing call is rolled back and leaves the store
unchanged. -/
def runOp (db : DB) : Op → DB
  | .create cid n dn dc u =>
    match createCompany db cid n dn dc u with
    | .ok (db', _) => db'
    | .error _ => db
  | .update cid ctx =>
    match updateCompanyContext db cid ctx with
    | .ok (db', _) => db'
    | .error _ => db
  | .delete cid =>
    match deleteCompany db cid with
    | .ok db' => db'
    | .error _ => db

/-- Run a history of calls from the empty store. -/
def runOps (ops : List Op) : DB := ops.foldl runOp DB.init

/-- Whether a call is a `createCompany` or `updateCompanyContext` call. -/
def Op.isCreateOrUpdate : Op → Bool
  | .create .. => true
  | .update .. => true
  | .delete _ => false

/-! ### Basic lemmas about the helper functions -/

theorem deactFor_company_id (cid : String) (c : CompanyContext) :
    (deactFor cid c).company_id = c.company_id := by
  unfold deactFor; split <;> rfl

theorem deactFor_version (cid : String) (c : CompanyContext) :
    (deactFor cid c).version = c.version := by
  unfold deactFor; split <;> rfl

theorem setDocCtx_companyId (cid ctx : String) (c : Company) :
    (setDocCtx cid ctx c).companyId = c.companyId := by
  unfold setDocCtx; split <;> rfl

theorem filter_map_deactFor (cid cid' : String) (l : List CompanyContext) :
    (l.map (deactFor cid)).filter (fun c => c.company_id == cid')
      = (l.filter (fun c => c.company_id == cid')).map (deactFor cid) := by
  induction l with
  | nil => rfl
  | cons a l ih =>
    simp only [List.map_cons, List.filter_cons, deactFor_company_id]
    by_cases h : (a.company_id == cid') = true
    · simp [h, ih]
    · simp only [Bool.not_eq_true] at h
      simp [h, ih]

theorem map_deactFor_of_ne (cid cid' : String) (h : cid' ≠ cid)
    (l : List CompanyContext) :
    (l.filter (fun c => c.company_id == cid')).map (deactFor cid)
      = l.filter (fun c => c.company_id == cid') := by
  induction l with
  | nil => rfl
  | cons a l ih =>
    simp only [List.filter_cons]
    by_cases ha : (a.company_id == cid') = true
    · have haeq : a.company_id = cid' := beq_iff_eq.mp ha
      have hne : (a.company_id == cid) = false := by
        apply beq_eq_false_iff_ne.mpr
        rw [haeq]; exact h
      have hd : deactFor cid a = a := by
        unfold deactFor; simp [hne]
      simp [ha, ih, hd]
    · simp only [Bool.not_eq_true] at ha
      simp [ha, ih]

theorem filter_isActive_map_deactFor (cid : String) (l : List CompanyContext) :
    ((l.filter (fun c => c.company_id == cid)).map (deactFor cid)).filter
      (fun c => c.isActive) = [] := by
  induction l with
  | nil => rfl
  | cons a l ih =>
    simp only [List.filter_cons]
    by_cases ha : (a.company_id == cid) = true
    · simp only [ha, if_pos rfl, List.map_cons, List.filter_cons]
      have : (deactFor cid a).isActive = false := by
        unfold deactFor; simp [ha]
      simp [this, ih]
    · simp only [Bool.not_eq_true] at ha
      simp [ha, ih]

/-- `maxByVersion` computes the maximum of the versions (0 when empty). -/
theorem maxByVersion_version (l : List CompanyContext) :
    (match maxByVersion l with
     | some c => c.version
     | none => 0) = (l.map (fun c => c.version)).foldr max 0 := by
  induction l with
  | nil => rfl
  | cons a l ih =>
    simp only [List.map_cons, List.foldr_cons, maxByVersion]
    cases hm : maxByVersion l with
    | none =>
      simp only [hm] at ih
      simp [← ih]
    | some m =>
      simp only [hm] at ih
      by_cases hv : m.version > a.version
      · simp only [hm, if_pos hv, ← ih]
        omega
      · simp only [hm, if_neg hv, ← ih]
        omega

theorem foldr_max_shift (l : List Nat) (b : Nat) :
    l.foldr max b = max b (l.foldr max 0) := by
  induction l with
  | nil => simp
  | cons a l ih =>
    simp only [List.foldr_cons, ih]
    omega

theorem foldr_max_range' (k : Nat) :
    (List.range' 1 k).foldr max 0 = k := by
  induction k with
  | zero => rfl
  | succ n ih =>
    have hc : List.range' 1 (n + 1) = List.range' 1 n ++ [1 + n] := by
      simpa using @List.range'_concat 1 1 n
    rw [hc, List.foldr_append]
    simp only [List.foldr_cons, List.foldr_nil]
    rw [foldr_max_shift]
    omega

/-! ### Characterization of the successful write paths -/

/-- The version number `updateCompanyContext` assigns. -/
def newVersionOf (db : DB) (cid : String) : Nat :=
  match maxByVersion (ctxsFor db cid) with
  | some latest => latest.version + 1
  | none => 1

theorem maxByVersion_eq_none (l : List CompanyContext) :
    maxByVersion l = none ↔ l = [] := by
  cases l with
  | nil => simp [maxByVersion]
  | cons a l =>
    simp only [maxByVersion]
    cases maxByVersion l with
    | none => simp
    | some m => by_cases h : m.version > a.version <;> simp [h]

theorem maxByVersion_some_version (l : List CompanyContext) (m : CompanyContext)
    (h : maxByVersion l = some m) :
    m.version = (l.map (fun c => c.version)).foldr max 0 := by
  have hmx := maxByVersion_version l
  rw [h] at hmx
  exact hmx

theorem newVersionOf_eq (db : DB) (cid : String) :
    newVersionOf db cid
      = ((ctxsFor db cid).map (fun c => c.version)).foldr max 0 + 1 := by
  unfold newVersionOf
  cases h : maxByVersion (ctxsFor db cid) with
  | none =>
    have : ctxsFor db cid = [] := (maxByVersion_eq_none _).mp h
    simp [this]
  | some m =>
    have := maxByVersion_some_version _ _ h
    simp [this]

theorem newVersionOf_of_range (db : DB) (cid : String) (k : Nat)
    (hv : (ctxsFor db cid).map (fun c => c.version) = List.range' 1 k) :
    newVersionOf db cid = k + 1 := by
  rw [newVersionOf_eq, hv, foldr_max_range']

theorem createCompany_ok (db : DB) (a b c d e : String)
    (hval : ¬(a = "" ∨ b = "" ∨ d = "" ∨ e = ""))
    (hfind : findCompany db a = none) :
    createCompany db a b c d e =
      .ok ({ companies := db.companies ++
               [{ companyId := a, name := b, documentName := c,
                  documentContext := d, chatbotUrl := e, trainingStatus := .completed }],
             contexts := db.contexts ++
               [{ company_id := a, context := d, version := 1, isActive := true }] },
           { companyId := a, name := b, documentName := c, documentContext := d,
             chatbotUrl := e, trainingStatus := .completed }) := by
  unfold createCompany
  rw [if_neg hval, hfind]

theorem updateCompanyContext_ok (db : DB) (cid ctx : String) (company : Company)
    (hctx : ctx ≠ "") (hfind : findCompany db cid = some company) :
    updateCompanyContext db cid ctx =
      .ok ({ companies := db.companies.map (setDocCtx cid ctx),
             contexts := db.contexts.map (deactFor cid) ++
               [{ company_id := cid, context := ctx,
                  version := newVersionOf db cid, isActive := true }] },
           { companyId := company.companyId, name := company.name, context := ctx,
             version := newVersionOf db cid, isActive := true }) := by
  unfold updateCompanyContext
  rw [if_neg hctx, hfind]
  rfl

theorem deleteCompany_ok (db : DB) (cid : String) (company : Company)
    (hfind : findCompany db cid = some company) :
    deleteCompany db cid =
      .ok { db with companies := db.companies.eraseP (fun c => c.companyId == cid) } := by
  unfold deleteCompany
  rw [hfind]

/-! ### The single-active / gap-free-versions invariant -/

/-- Invariant maintained by `createCompany` and `updateCompanyContext`:
for every company id, the stored versions are exactly `1, 2, …, k` in
insertion order, context records exist only for existing companies, and at
most one context record is active. -/
def StoreInv (db : DB) : Prop := ∀ cid,
  (ctxsFor db cid).map (fun c => c.version) = List.range' 1 (ctxsFor db cid).length
  ∧ (ctxsFor db cid ≠ [] → (findCompany db cid).isSome = true)
  ∧ (activesFor db cid).length ≤ 1

theorem inv_init : StoreInv DB.init := by
  intro cid
  refine ⟨rfl, fun hne => absurd rfl hne, ?_⟩
  simp [activesFor, ctxsFor, DB.init]

theorem filter_isActive_map_deactFor2 (db : DB) (cid : String) :
    ((ctxsFor db cid).map (deactFor cid)).filter (fun c => c.isActive) = [] :=
  filter_isActive_map_deactFor cid db.contexts

theorem storeInv_create (db : DB) (a b c d e : String) (h : StoreInv db) :
    StoreInv (runOp db (.create a b c d e)) := by
  by_cases hval : (a = "" ∨ b = "" ∨ d = "" ∨ e = "")
  · have hrun : runOp db (.create a b c d e) = db := by
      simp [runOp, createCompany, hval]
    rw [hrun]; exact h
  · cases hfind : findCompany db a with
    | some c0 =>
      have hrun : runOp db (.create a b c d e) = db := by
        simp [runOp, createCompany, hval, hfind]
      rw [hrun]; exact h
    | none =>
      have hempty : ctxsFor db a = [] := by
        by_contra hne
        have hs := (h a).2.1 hne
        rw [hfind] at hs
        simp at hs
      have hrun : runOp db (.create a b c d e) =
          { companies := db.companies ++
              [{ companyId := a, name := b, documentName := c,
                 documentContext := d, chatbotUrl := e, trainingStatus := .completed }],
            contexts := db.contexts ++
              [{ company_id := a, context := d, version := 1, isActive := true }] } := by
        simp [runOp, createCompany_ok db a b c d e hval hfind]
      rw [hrun]
      intro cid
      obtain ⟨hv, hex, hact⟩ := h cid
      by_cases hc : cid = a
      · subst hc
        have hctx : ctxsFor
            { companies := db.companies ++
                [{ companyId := cid, name := b, documentName := c,
                   documentContext := d, chatbotUrl := e, trainingStatus := .completed }],
              contexts := db.contexts ++
                [{ company_id := cid, context := d, version := 1, isActive := true }] } cid
            = [{ company_id := cid, context := d, version := 1, isActive := true }] := by
          simp only [ctxsFor, List.filter_append]
          have : db.contexts.filter (fun x => x.company_id == cid) = [] := hempty
          rw [this]
          simp
        refine ⟨?_, ?_, ?_⟩
        · rw [hctx]; rfl
        · intro _
          simp only [findCompany, List.find?_append]
          have hnone : db.companies.find? (fun x => x.companyId == cid) = none := hfind
          rw [hnone]
          simp
        · simp [activesFor, hctx]
      · have hc' : (a == cid) = false := beq_eq_false_iff_ne.mpr (fun hh => hc hh.symm)
        have hctx : ctxsFor
            { companies := db.companies ++
                [{ companyId := a, name := b, documentName := c,
                   documentContext := d, chatbotUrl := e, trainingStatus := .completed }],
              contexts := db.contexts ++
                [{ company_id := a, context := d, version := 1, isActive := true }] } cid
            = ctxsFor db cid := by
          simp only [ctxsFor, List.filter_append]
          simp [hc']
        refine ⟨?_, ?_, ?_⟩
        · rw [hctx]; exact hv
        · intro hne
          rw [hctx] at hne
          have hs := hex hne
          simp only [findCompany, List.find?_append]
          cases hfo : db.companies.find? (fun x => x.companyId == cid) with
          | none => rw [findCompany, hfo] at hs; simp at hs
          | some v => simp
        · simp only [activesFor, hctx]
          exact hact

theorem storeInv_update (db : DB) (cid0 ctx : String) (h : StoreInv db) :
    StoreInv (runOp db (.update cid0 ctx)) := by
  by_cases hctx : ctx = ""
  · have hrun : runOp db (.update cid0 ctx) = db := by
      simp [runOp, updateCompanyContext, hctx]
    rw [hrun]; exact h
  · cases hfind : findCompany db cid0 with
    | none =>
      have hrun : runOp db (.update cid0 ctx) = db := by
        simp [runOp, updateCompanyContext, hctx, hfind]
      rw [hrun]; exact h
    | some company =>
      have hrun : runOp db (.update cid0 ctx) =
          { companies := db.companies.map (setDocCtx cid0 ctx),
            contexts := db.contexts.map (deactFor cid0) ++
              [{ company_id := cid0, context := ctx,
                 version := newVersionOf db cid0, isActive := true }] } := by
        simp [runOp, updateCompanyContext_ok db cid0 ctx company hctx hfind]
      rw [hrun]
      intro cid
      obtain ⟨hv, hex, hact⟩ := h cid
      have hfind_map : findCompany
          { companies := db.companies.map (setDocCtx cid0 ctx),
            contexts := db.contexts.map (deactFor cid0) ++
              [{ company_id := cid0, context := ctx,
                 version := newVersionOf db cid0, isActive := true }] } cid
          = (findCompany db cid).map (setDocCtx cid0 ctx) := by
        simp only [findCompany, List.find?_map]
        congr 2
        funext x
        rw [Function.comp_apply, setDocCtx_companyId]
      by_cases hc : cid = cid0
      · subst hc
        have hctxs : ctxsFor
            { companies := db.companies.map (setDocCtx cid ctx),
              contexts := db.contexts.map (deactFor cid) ++
                [{ company_id := cid, context := ctx,
                   version := newVersionOf db cid, isActive := true }] } cid
            = (ctxsFor db cid).map (deactFor cid) ++
              [{ company_id := cid, context := ctx,
                 version := newVersionOf db cid, isActive := true }] := by
          simp only [ctxsFor, List.filter_append, filter_map_deactFor]
          simp [ctxsFor]
        refine ⟨?_, ?_, ?_⟩
        · rw [hctxs]
          have hversions : ((ctxsFor db cid).map (deactFor cid)).map (fun c => c.version)
              = (ctxsFor db cid).map (fun c => c.version) := by
            rw [List.map_map]
            apply List.map_congr_left
            intro x _
            rw [Function.comp_apply, deactFor_version]
          have hnew : newVersionOf db cid = (ctxsFor db cid).length + 1 :=
            newVersionOf_of_range db cid (ctxsFor db cid).length hv
          simp only [List.map_append, hversions, hv, hnew, List.map_cons, List.map_nil,
            List.length_append, List.length_map, List.length_cons, List.length_nil]
          have hconc := @List.range'_concat 1 1 (ctxsFor db cid).length
          simp only [one_mul] at hconc
          rw [hconc]
          simp [Nat.add_comm]
        · intro _
          rw [hfind_map, hfind]
          simp
        · simp only [activesFor, hctxs, List.filter_append, filter_isActive_map_deactFor2]
          simp
      · have hc' : (cid0 == cid) = false := beq_eq_false_iff_ne.mpr (fun hh => hc hh.symm)
        have hctxs : ctxsFor
            { companies := db.companies.map (setDocCtx cid0 ctx),
              contexts := db.contexts.map (deactFor cid0) ++
                [{ company_id := cid0, context := ctx,
                   version := newVersionOf db cid0, isActive := true }] } cid
            = ctxsFor db cid := by
          simp only [ctxsFor, List.filter_append, filter_map_deactFor]
          rw [map_deactFor_of_ne cid0 cid hc]
          simp [hc']
        refine ⟨?_, ?_, ?_⟩
        · rw [hctxs]; exact hv
        · intro hne
          rw [hctxs] at hne
          have hs := hex hne
          rw [hfind_map]
          simp only [Option.isSome_map']
          exact hs
        · simp only [activesFor, hctxs]
          exact hact

theorem storeInv_runOp (db : DB) (op : Op) (h : StoreInv db)
    (hg : op.isCreateOrUpdate = true) : StoreInv (runOp db op) := by
  cases op with
  | create a b c d e => exact storeInv_create db a b c d e h
  | update cid ctx => exact storeInv_update db cid ctx h
  | delete cid => simp [Op.isCreateOrUpdate] at hg

theorem storeInv_foldl (ops : List Op) : ∀ db : DB, StoreInv db →
    ops.all Op.isCreateOrUpdate = true → StoreInv (ops.foldl runOp db) := by
  induction ops with
  | nil => intro db h _; exact h
  | cons op ops ih =>
    intro db h hall
    simp only [List.all_cons, Bool.and_eq_true] at hall
    exact ih _ (storeInv_runOp db op h hall.1) hall.2

theorem storeInv_runOps (ops : List Op) (hall : ops.all Op.isCreateOrUpdate = true) :
    StoreInv (runOps ops) := storeInv_foldl ops DB.init inv_init hall

/-! ### Further support lemmas -/

theorem find?_map_setDocCtx (l : List Company) (cid0 ctx cid : String) :
    (l.map (setDocCtx cid0 ctx)).find? (fun c => c.companyId == cid)
      = (l.find? (fun c => c.companyId == cid)).map (setDocCtx cid0 ctx) := by
  rw [List.find?_map]
  congr 2
  funext x
  rw [Function.comp_apply, setDocCtx_companyId]

theorem map_deactFor_ctxsFor (db : DB) (cid : String) :
    (ctxsFor db cid).map (deactFor cid)
      = (ctxsFor db cid).map (fun c => { c with isActive := false }) := by
  apply List.map_congr_left
  intro x hx
  simp only [ctxsFor] at hx
  have hp : (x.company_id == cid) = true := (List.mem_filter.mp hx).2
  unfold deactFor
  simp [hp]

theorem ctxsFor_update_shape (db : DB) (cid ctx : String) (n : Nat) :
    ctxsFor
      { companies := db.companies.map (setDocCtx cid ctx),
        contexts := db.contexts.map (deactFor cid) ++
          [{ company_id := cid, context := ctx, version := n, isActive := true }] } cid
      = (ctxsFor db cid).map (deactFor cid) ++
        [{ company_id := cid, context := ctx, version := n, isActive := true }] := by
  simp only [ctxsFor, List.filter_append, filter_map_deactFor]
  simp [ctxsFor]

theorem find?_eraseP_nodup (l : List Company) (cid : String)
    (hnodup : (l.map (fun c => c.companyId)).Nodup) :
    (l.eraseP (fun c => c.companyId == cid)).find? (fun c => c.companyId == cid) = none := by
  induction l with
  | nil => rfl
  | cons a l ih =>
    simp only [List.map_cons, List.nodup_cons] at hnodup
    obtain ⟨ha, hl⟩ := hnodup
    by_cases hp : (a.companyId == cid) = true
    · have he : (a :: l).eraseP (fun c => c.companyId == cid) = l := by
        simp [List.eraseP_cons, hp]
      rw [he]
      apply List.find?_eq_none.mpr
      intro x hx hxp
      apply ha
      have hxeq : x.companyId = cid := beq_iff_eq.mp hxp
      have haeq : a.companyId = cid := beq_iff_eq.mp hp
      rw [haeq, ← hxeq]
      exact List.mem_map.mpr ⟨x, hx, rfl⟩
    · have hp' : (a.companyId == cid) = false := by
        simp only [Bool.not_eq_true] at hp; exact hp
      have he : (a :: l).eraseP (fun c => c.companyId == cid)
          = a :: l.eraseP (fun c => c.companyId == cid) := by
        simp [List.eraseP_cons, hp']
      rw [he]
      have hf : (a :: l.eraseP (fun c => c.companyId == cid)).find?
            (fun c => c.companyId == cid)
          = (l.eraseP (fun c => c.companyId == cid)).find? (fun c => c.companyId == cid) := by
        simp [List.find?_cons, hp']
      rw [hf]
      exact ih hl

/-! ### Claim C1 -/

/-- C1: after any completed, sequentially executed history of
`createCompany` and `updateCompanyContext` calls starting from the empty
store, every company id has at most one `CompanyContext` record with
`isActive = true`. -/
theorem c1_single_active (ops : List Op) (cid : String)
    (hall : ops.all Op.isCreateOrUpdate = true) :
    (activesFor (runOps ops) cid).length ≤ 1 :=
  ((storeInv_runOps ops hall) cid).2.2

theorem c1_single_active_witness :
    ([Op.create "c1" "Acme" "doc" "ctx-v1" "/c1", Op.update "c1" "ctx-v2"].all
        Op.isCreateOrUpdate = true)
    ∧ (activesFor (runOps [Op.create "c1" "Acme" "doc" "ctx-v1" "/c1",
          Op.update "c1" "ctx-v2"]) "c1").length ≤ 1 :=
  ⟨by decide, c1_single_active [Op.create "c1" "Acme" "doc" "ctx-v1" "/c1",
      Op.update "c1" "ctx-v2"] "c1" (by decide)⟩

/-! ### Claim C4 -/

/-- C4 counterexample: the history create "c1" → delete "c1" →
create "c1" leaves two `CompanyContext` records for "c1" both carrying
version 1 — version numbers are reused and not strictly increasing across
a history that deletes and re-creates a company. -/
theorem c4_counterexample :
    ((ctxsFor (runOps [Op.create "c1" "Acme" "doc" "ctx-v1" "/c1",
        Op.delete "c1", Op.create "c1" "Acme" "doc" "ctx-v2" "/c1"]) "c1").map
          (fun c => c.version) = [1, 1])
    ∧ ¬ (((ctxsFor (runOps [Op.create "c1" "Acme" "doc" "ctx-v1" "/c1",
        Op.delete "c1", Op.create "c1" "Acme" "doc" "ctx-v2" "/c1"]) "c1").map
          (fun c => c.version)).Pairwise (· < ·)) := by
  constructor
  · decide
  · decide

/-- C4 (amended): for histories of `createCompany` and
`updateCompanyContext` calls only (no `deleteCompany`), the version
numbers stored for each company id are exactly `1, 2, …, k` in insertion
order — strictly increasing, gap-free from 1, never reused.  (After
`deleteCompany` and re-creation under the same id, version records survive
and version 1 is reused, as the counterexample shows.) -/
theorem c4_amended (ops : List Op) (cid : String)
    (hall : ops.all Op.isCreateOrUpdate = true) :
    ((ctxsFor (runOps ops) cid).map (fun c => c.version)
        = List.range' 1 (ctxsFor (runOps ops) cid).length)
    ∧ ((ctxsFor (runOps ops) cid).map (fun c => c.version)).Pairwise (· < ·) := by
  have hv := ((storeInv_runOps ops hall) cid).1
  refine ⟨hv, ?_⟩
  rw [hv]
  exact List.pairwise_lt_range' 1 (ctxsFor (runOps ops) cid).length

theorem c4_amended_witness :
    ([Op.create "c1" "Acme" "doc" "ctx-v1" "/c1", Op.update "c1" "ctx-v2"].all
        Op.isCreateOrUpdate = true)
    ∧ (((ctxsFor (runOps [Op.create "c1" "Acme" "doc" "ctx-v1" "/c1",
          Op.update "c1" "ctx-v2"]) "c1").map (fun c => c.version)
        = List.range' 1 (ctxsFor (runOps [Op.create "c1" "Acme" "doc" "ctx-v1" "/c1",
            Op.update "c1" "ctx-v2"]) "c1").length)
      ∧ (((ctxsFor (runOps [Op.create "c1" "Acme" "doc" "ctx-v1" "/c1",
          Op.update "c1" "ctx-v2"]) "c1").map (fun c => c.version)).Pairwise (· < ·))) :=
  ⟨by decide, c4_amended [Op.create "c1" "Acme" "doc" "ctx-v1" "/c1",
      Op.update "c1" "ctx-v2"] "c1" (by decide)⟩

/-! ### Claim C2 -/

/-- C2: for an existing company and non-empty new text,
`updateCompanyContext` reads the current maximum version (0 when no record
exists), marks every existing record of that company inactive, appends a
new record with `version = previousMax + 1` and `isActive = true`,
overwrites the company's denormalized `documentContext`, and responds with
the new text, version and `isActive = true`. -/
theorem c2_update_steps (db : DB) (cid ctx : String) (company : Company)
    (hctx : ctx ≠ "") (hfind : findCompany db cid = some company) :
    ∃ db' resp, updateCompanyContext db cid ctx = .ok (db', resp)
      ∧ ctxsFor db' cid
          = (ctxsFor db cid).map (fun c => { c with isActive := false })
            ++ [{ company_id := cid, context := ctx,
                  version := ((ctxsFor db cid).map (fun c => c.version)).foldr max 0 + 1,
                  isActive := true }]
      ∧ findCompany db' cid = some { company with documentContext := ctx }
      ∧ resp.context = ctx
      ∧ resp.version = ((ctxsFor db cid).map (fun c => c.version)).foldr max 0 + 1
      ∧ resp.isActive = true := by
  have hok := updateCompanyContext_ok db cid ctx company hctx hfind
  refine ⟨_, _, hok, ?_, ?_, rfl, ?_, rfl⟩
  · rw [ctxsFor_update_shape, map_deactFor_ctxsFor, newVersionOf_eq]
  · have hbeq : (company.companyId == cid) = true := by
      have h2 := hfind
      unfold findCompany at h2
      have h3 := List.find?_some h2
      simpa using h3
    simp only [findCompany]
    rw [find?_map_setDocCtx]
    rw [show db.companies.find? (fun c => c.companyId == cid) = some company from hfind]
    simp only [Option.map_some']
    unfold setDocCtx
    simp [hbeq]
  · show newVersionOf db cid = _
    exact newVersionOf_eq db cid

/-- Sample company used by concrete witnesses. -/
def acme : Company :=
  { companyId := "c1", name := "Acme", documentName := "doc",
    documentContext := "Y", chatbotUrl := "/c1", trainingStatus := .completed }

/-- Sample store holding `acme` and no context records. -/
def dbAcme : DB := { companies := [acme], contexts := [] }

theorem c2_update_steps_witness :
    (("ctx-v2" : String) ≠ "" ∧ findCompany dbAcme "c1" = some acme)
    ∧ ∃ db' resp, updateCompanyContext dbAcme "c1" "ctx-v2" = .ok (db', resp)
      ∧ ctxsFor db' "c1"
          = (ctxsFor dbAcme "c1").map (fun c => { c with isActive := false })
            ++ [{ company_id := "c1", context := "ctx-v2",
                  version := ((ctxsFor dbAcme "c1").map (fun c => c.version)).foldr max 0 + 1,
                  isActive := true }]
      ∧ findCompany db' "c1" = some { acme with documentContext := "ctx-v2" }
      ∧ resp.context = "ctx-v2"
      ∧ resp.version = ((ctxsFor dbAcme "c1").map (fun c => c.version)).foldr max 0 + 1
      ∧ resp.isActive = true :=
  ⟨⟨by decide, rfl⟩, c2_update_steps dbAcme "c1" "ctx-v2" acme (by decide) rfl⟩

/-! ### Claim C5 -/

/-- C5: creating a fresh company with context text `x` and then reading
the context returns text `x`, version 1 and origin `context_collection`. -/
theorem c5_roundtrip (db : DB) (cid cname dn x url : String)
    (hfresh : findCompany db cid = none) (hnoctx : ctxsFor db cid = [])
    (hcid : cid ≠ "") (hname : cname ≠ "") (hx : x ≠ "") (hurl : url ≠ "") :
    ∃ db' company, createCompany db cid cname dn x url = .ok (db', company)
      ∧ getCompanyContext db' cid
          = .ok { companyId := cid, name := cname, context := x, version := 1,
                  source := .context_collection } := by
  have hval : ¬(cid = "" ∨ cname = "" ∨ x = "" ∨ url = "") := by
    push_neg
    exact ⟨hcid, hname, hx, hurl⟩
  have hok := createCompany_ok db cid cname dn x url hval hfresh
  refine ⟨_, _, hok, ?_⟩
  have hfind' : findCompany
      { companies := db.companies ++
          [{ companyId := cid, name := cname, documentName := dn,
             documentContext := x, chatbotUrl := url, trainingStatus := .completed }],
        contexts := db.contexts ++
          [{ company_id := cid, context := x, version := 1, isActive := true }] } cid
      = some { companyId := cid, name := cname, documentName := dn,
               documentContext := x, chatbotUrl := url, trainingStatus := .completed } := by
    simp only [findCompany, List.find?_append]
    rw [show db.companies.find? (fun c => c.companyId == cid) = none from hfresh]
    simp
  have hacts : activesFor
      { companies := db.companies ++
          [{ companyId := cid, name := cname, documentName := dn,
             documentContext := x, chatbotUrl := url, trainingStatus := .completed }],
        contexts := db.contexts ++
          [{ company_id := cid, context := x, version := 1, isActive := true }] } cid
      = [{ company_id := cid, context := x, version := 1, isActive := true }] := by
    simp only [activesFor, ctxsFor, List.filter_append]
    rw [show db.contexts.filter (fun c => c.company_id == cid) = [] from hnoctx]
    simp
  unfold getCompanyContext
  rw [hfind', hacts]
  rfl

theorem c5_roundtrip_witness :
    (findCompany DB.init "c1" = none ∧ ctxsFor DB.init "c1" = []
      ∧ ("c1" : String) ≠ "" ∧ ("Acme" : String) ≠ ""
      ∧ ("X" : String) ≠ "" ∧ ("/c1" : String) ≠ "")
    ∧ ∃ db' company, createCompany DB.init "c1" "Acme" "doc" "X" "/c1" = .ok (db', company)
      ∧ getCompanyContext db' "c1"
          = .ok { companyId := "c1", name := "Acme", context := "X", version := 1,
                  source := .context_collection } :=
  ⟨⟨rfl, rfl, by decide, by decide, by decide, by decide⟩,
   c5_roundtrip DB.init "c1" "Acme" "doc" "X" "/c1" rfl rfl
     (by decide) (by decide) (by decide) (by decide)⟩

/-! ### Claim C6 -/

/-- C6: when a company exists with no context records and a non-empty
denormalized `documentContext`, the read returns that text with version 1
and origin `company_fallback`; when no active record and no non-empty
denormalized context exist, the read fails with a 404 error. -/
theorem c6_fallback (db : DB) (cid : String) (company : Company)
    (hfind : findCompany db cid = some company) :
    (ctxsFor db cid = [] → company.documentContext ≠ "" →
       getCompanyContext db cid
         = .ok { companyId := company.companyId, name := company.name,
                 context := company.documentContext, version := 1,
                 source := .company_fallback })
    ∧ (activesFor db cid = [] → company.documentContext = "" →
       getCompanyContext db cid
         = .error { message := "No context available for company with ID " ++ cid,
                    statusCode := 404 }) := by
  constructor
  · intro hno hdoc
    have hact : activesFor db cid = [] := by
      rw [activesFor, hno]
      rfl
    unfold getCompanyContext
    rw [hfind, hact]
    simp [maxByVersion, hdoc]
  · intro hact hdoc
    unfold getCompanyContext
    rw [hfind, hact]
    simp [maxByVersion, hdoc]

theorem c6_fallback_witness :
    (findCompany dbAcme "c1" = some acme)
    ∧ ((ctxsFor dbAcme "c1" = [] → acme.documentContext ≠ "" →
        getCompanyContext dbAcme "c1"
          = .ok { companyId := acme.companyId, name := acme.name,
                  context := acme.documentContext, version := 1,
                  source := .company_fallback })
      ∧ (activesFor dbAcme "c1" = [] → acme.documentContext = "" →
        getCompanyContext dbAcme "c1"
          = .error { message := "No context available for company with ID " ++ "c1",
                     statusCode := 404 })) :=
  ⟨rfl, c6_fallback dbAcme "c1" acme rfl⟩

/-! ### Claim C7 -/

/-- C7 counterexample: for a company id that does not exist, the
context-diagnostic endpoint responds with HTTP status 404 — not the 200
report the claim asserts (the 404 body does carry `exists:false`). -/
theorem c7_counterexample :
    (contextDiagnostic DB.init "c1").status = 404
    ∧ (contextDiagnostic DB.init "c1").status ≠ 200
    ∧ (contextDiagnostic DB.init "c1").existsFlag = false := by
  decide

/-- C7 (amended): for a missing company the context-diagnostic endpoint
returns a 404 response whose body reports `exists = false`; it is not the
claimed 200 report. -/
theorem c7_amended (db : DB) (cid : String) (h : findCompany db cid = none) :
    (contextDiagnostic db cid).status = 404
    ∧ (contextDiagnostic db cid).existsFlag = false := by
  have hd : contextDiagnostic db cid = .notFound cid := by
    unfold contextDiagnostic
    rw [h]
  rw [hd]
  exact ⟨rfl, rfl⟩

theorem c7_amended_witness :
    (findCompany DB.init "c1" = none)
    ∧ ((contextDiagnostic DB.init "c1").status = 404
      ∧ (contextDiagnostic DB.init "c1").existsFlag = false) :=
  ⟨rfl, c7_amended DB.init "c1" rfl⟩

/-! ### Claim C8 -/

/-- C8 counterexample: `dbAcme`'s company has a present (non-empty)
denormalized context `"Y"` and zero version records, yet the diagnostic
suggests `UPLOAD_DOCUMENT`, not `CREATE_CONTEXT` — because the code tests
`documentContext.length > 100`, not mere presence. -/
theorem c8_counterexample :
    (findCompany dbAcme "c1").map (fun c => c.documentContext) = some "Y"
    ∧ ("Y" : String) ≠ ""
    ∧ (ctxsFor dbAcme "c1").length = 0
    ∧ (contextDiagnostic dbAcme "c1").suggestionOf = some Suggestion.UPLOAD_DOCUMENT
    ∧ (contextDiagnostic dbAcme "c1").suggestionOf ≠ some Suggestion.CREATE_CONTEXT := by
  decide

/-- C8 (amended): for an existing company the diagnostic responds 200 and
suggests `CREATE_CONTEXT` exactly when zero version records exist and the
denormalized context is longer than 100 characters, `UPLOAD_DOCUMENT`
exactly when zero version records exist and the denormalized context is
not longer than 100 characters, and `FIX_ACTIVE_CONTEXTS` exactly when
more than one version record is active (reported, not a failure). -/
theorem c8_amended (db : DB) (cid : String) (company : Company)
    (hfind : findCompany db cid = some company) :
    (contextDiagnostic db cid).status = 200
    ∧ ((contextDiagnostic db cid).suggestionOf = some Suggestion.CREATE_CONTEXT
        ↔ (ctxsFor db cid).length = 0 ∧ company.documentContext.length > 100)
    ∧ ((contextDiagnostic db cid).suggestionOf = some Suggestion.UPLOAD_DOCUMENT
        ↔ (ctxsFor db cid).length = 0 ∧ ¬(company.documentContext.length > 100))
    ∧ ((contextDiagnostic db cid).suggestionOf = some Suggestion.FIX_ACTIVE_CONTEXTS
        ↔ (activesFor db cid).length > 1) := by
  have hle : ((ctxsFor db cid).filter (fun c => c.isActive)).length ≤ (ctxsFor db cid).length :=
    List.length_filter_le _ _
  unfold contextDiagnostic
  rw [hfind]
  simp only [DiagResult.status, DiagResult.suggestionOf, activesFor]
  refine ⟨trivial, ?_⟩
  by_cases hzero : (ctxsFor db cid).length = 0
  · have hact0 : ((ctxsFor db cid).filter (fun c => c.isActive)).length = 0 := by omega
    by_cases hdoc : company.documentContext.length > 100
    · simp [hzero, hdoc, hact0]
    · simp [hzero, hdoc, hact0]
  · by_cases hmulti : ((ctxsFor db cid).filter (fun c => c.isActive)).length > 1
    · simp [hzero, hmulti]
    · simp [hzero, hmulti]

theorem c8_amended_witness :
    (findCompany dbAcme "c1" = some acme)
    ∧ ((contextDiagnostic dbAcme "c1").status = 200
      ∧ ((contextDiagnostic dbAcme "c1").suggestionOf = some Suggestion.CREATE_CONTEXT
          ↔ (ctxsFor dbAcme "c1").length = 0 ∧ acme.documentContext.length > 100)
      ∧ ((contextDiagnostic dbAcme "c1").suggestionOf = some Suggestion.UPLOAD_DOCUMENT
          ↔ (ctxsFor dbAcme "c1").length = 0 ∧ ¬(acme.documentContext.length > 100))
      ∧ ((contextDiagnostic dbAcme "c1").suggestionOf = some Suggestion.FIX_ACTIVE_CONTEXTS
          ↔ (activesFor dbAcme "c1").length > 1)) :=
  ⟨rfl, c8_amended dbAcme "c1" acme rfl⟩

/-! ### Claim C9 -/

/-- Sample team: u1 owns it, u2 is an ordinary member. -/
def team9 : Team :=
  { owner := "u1",
    members := [{ user := "u1", role := .owner }, { user := "u2", role := .member }] }

/-- C9 counterexample: a caller with role `member` (u2) targeting the
owner (u1) is rejected with 403 (authorization), not the claimed 400 —
the caller-role check runs before the owner-target check. -/
theorem c9_counterexample :
    statusOf (removeTeamMember (some team9) "u2" "u1") = 403
    ∧ statusOf (removeTeamMember (some team9) "u2" "u1") ≠ 400 := by
  decide

/-- C9 (amended): a member-removal request targeting the team owner never
succeeds (membership unchanged): it is rejected with 400 when the caller
is a member with role owner or admin, and with 403 otherwise; a missing
team is rejected 404 before any membership evaluation. -/
theorem c9_amended (team : Team) (callerId : String) :
    (removeTeamMember (some team) callerId team.owner).isOk = false
    ∧ statusOf (removeTeamMember (some team) callerId team.owner)
        = (match team.members.find? (fun m => m.user == callerId) with
           | none => 403
           | some m => if m.role = Role.owner ∨ m.role = Role.admin then 400 else 403)
    ∧ (∀ targetId : String, removeTeamMember none callerId targetId
         = .error { message := "Team not found", statusCode := 404 }) := by
  refine ⟨?_, ?_, fun _ => rfl⟩
  · simp only [removeTeamMember]
    cases hfm : team.members.find? (fun m => m.user == callerId) with
    | none => rfl
    | some m =>
      by_cases hrole : m.role ≠ Role.owner ∧ m.role ≠ Role.admin
      · simp [hrole, Except.isOk, Except.toBool]
      · simp [hrole, Except.isOk, Except.toBool]
  · simp only [removeTeamMember]
    cases hfm : team.members.find? (fun m => m.user == callerId) with
    | none => rfl
    | some m =>
      by_cases hrole : m.role = Role.owner ∨ m.role = Role.admin
      · have hne : ¬(m.role ≠ Role.owner ∧ m.role ≠ Role.admin) := by tauto
        simp [statusOf, hne, hrole]
      · have hne : m.role ≠ Role.owner ∧ m.role ≠ Role.admin := by tauto
        simp [statusOf, hne, hrole]

/-! ### Claim C10 -/

/-- C10: `deleteCompany` removes only the Company record — every
`CompanyContext` record (active ones included) is left unchanged — and a
subsequent `getCompanyContext` fails 404 even though active version
records still exist.  (Company ids are unique, per the schema's unique
index.) -/
theorem c10_delete_frame (db : DB) (cid : String) (company : Company)
    (hfind : findCompany db cid = some company)
    (hnodup : (db.companies.map (fun c => c.companyId)).Nodup) :
    ∃ db', deleteCompany db cid = .ok db'
      ∧ db'.contexts = db.contexts
      ∧ ctxsFor db' cid = ctxsFor db cid
      ∧ activesFor db' cid = activesFor db cid
      ∧ ∃ e, getCompanyContext db' cid = .error e ∧ e.statusCode = 404 := by
  have hok := deleteCompany_ok db cid company hfind
  refine ⟨_, hok, rfl, rfl, rfl, ?_⟩
  have hgone : findCompany
      { db with companies := db.companies.eraseP (fun c => c.companyId == cid) } cid
      = none := by
    simp only [findCompany]
    exact find?_eraseP_nodup db.companies cid hnodup
  refine ⟨{ message := "Company with ID " ++ cid ++ " not found", statusCode := 404 },
    ?_, rfl⟩
  unfold getCompanyContext
  rw [hgone]

theorem c10_delete_frame_witness :
    (findCompany dbAcme "c1" = some acme
      ∧ (dbAcme.companies.map (fun c => c.companyId)).Nodup)
    ∧ ∃ db', deleteCompany dbAcme "c1" = .ok db'
      ∧ db'.contexts = dbAcme.contexts
      ∧ ctxsFor db' "c1" = ctxsFor dbAcme "c1"
      ∧ activesFor db' "c1" = activesFor dbAcme "c1"
      ∧ ∃ e, getCompanyContext db' "c1" = .error e ∧ e.statusCode = 404 :=
  ⟨⟨rfl, by decide⟩, c10_delete_frame dbAcme "c1" acme rfl (by decide)⟩
